import Mathlib

/-!
Verification of the PyMuPDF text-extraction plugin tool
(`src/tools/pymupdf.py`, class `PymupdfTool`).

The tool is shallowly embedded: Python bytes become `List Nat`, the two
external dependencies (the HTTP client and the PDF library) become fields of
an explicit `Env` record of pure functions, exceptions become
`Except String`, and the generator `_invoke` becomes a function returning
the list of yielded messages.  Side effects that the claims talk about
(HTTP requests issued, the PDF library import, resource closing) are made
observable by instrumenting the returned records with logs and flags.
-/

namespace Pymupdf

/-- Python byte strings, as lists of byte values. -/
abbrev Bytes := List Nat

/-- A Python value as it may appear in one of the item-dict fields the tool
reads (`blob`, `url`, `remote_url`, `filename`).  `vNone` is Python `None`,
`vOther` stands for any value of a type the tool does not recognise. -/
inductive PyVal where
  | vNone
  | vStr (s : String)
  | vBytes (b : Bytes)
  | vOther
deriving Repr, DecidableEq

/-- The fields of a dict item that the tool reads via `.get`; a `none`
field models a missing key (Python `.get` then returns `None`). -/
structure Dict where
  blob : Option PyVal
  url : Option PyVal
  remote_url : Option PyVal
  filename : Option PyVal
deriving Repr, DecidableEq

/-- An input item: either a plain dict, or a Dify `File`-like object carrying
an optional `blob` attribute (bytes) and an optional `url` attribute
(`none` models `hasattr(item, "url") == False`).  `getattr(item, "blob",
None)` on a dict yields `None`, which the `file`/`dict` split captures. -/
inductive Item where
  | dict (d : Dict)
  | file (blobAttr : Option Bytes) (urlAttr : Option String)
deriving Repr, DecidableEq

/-- An HTTP response as seen through `requests`: status code and body. -/
structure HttpResp where
  status : Nat
  body : Bytes
deriving Repr, DecidableEq

/-- A PyMuPDF document object: its reported `page_count` and, for each page
index, the result of `load_page(i).get_text("text")` (which may raise). -/
structure PdfDoc where
  page_count : Nat
  pageText : Nat → Except String String

/-- The external environment: `requests.get` (url, timeout) which may raise,
`fitz.open` on a byte string which may raise, and the outcome of importing
the PyMuPDF library. -/
structure Env where
  http : String → Nat → Except String HttpResp
  open_pdf : Bytes → Except String PdfDoc
  fitzImport : Except String Unit

/-- Python `str.strip()`: drop leading and trailing whitespace. -/
def pyStrip (s : String) : String :=
  String.mk
    (((s.data.dropWhile Char.isWhitespace).reverse.dropWhile Char.isWhitespace).reverse)

/-- `url.split("?", 1)[0]`: everything before the first question mark. -/
def beforeQuery (s : String) : String :=
  String.mk (s.data.takeWhile (fun c => c ≠ '?'))

/-- `os.path.basename` for the POSIX paths/URLs the tool feeds it: the part
after the last slash. -/
def basename (p : String) : String :=
  String.mk ((p.data.reverse.takeWhile (fun c => c ≠ '/')).reverse)

/-- `_first(*vals)`: the first argument that is a `str` with non-blank
content, stripped; `None` otherwise. -/
def firstStr : List (Option PyVal) → Option String
  | [] => none
  | v :: rest =>
    match v with
    | some (PyVal.vStr s) =>
      if pyStrip s = "" then firstStr rest else some (pyStrip s)
    | _ => firstStr rest

/-- The `if url:`-guarded tail of `_infer_filename`: derive a name from the
URL path (query string stripped, `basename`, falling back to
`"document.pdf"`), or `"document.pdf"` when no truthy URL is available. -/
def inferFromUrl : Option String → String
  | some u =>
    if u = "" then "document.pdf"
    else
      let leaf := basename (beforeQuery u)
      if leaf = "" then "document.pdf" else leaf
  | none => "document.pdf"

/-- `_infer_filename(item, url)`: prefer a non-blank string `filename` field
(stripped), else derive from the URL, else `"document.pdf"`. -/
def infer_filename (d : Dict) (url : Option String) : String :=
  match d.filename with
  | some (PyVal.vStr s) => if pyStrip s = "" then inferFromUrl url else pyStrip s
  | _ => inferFromUrl url

/-- The message of the `ValueError` raised when no PDF source is found. -/
def valueErrMsg : String :=
  "No usable PDF source found (need 'blob' or absolute 'url'/'remote_url')."

/-- `Response.raise_for_status()`: raises `HTTPError` for 4xx/5xx codes. -/
def raise_for_status (r : HttpResp) : Except String Unit :=
  if 400 ≤ r.status ∧ r.status < 600 then
    Except.error ("HTTP error " ++ toString r.status)
  else Except.ok ()

/-- The default `timeout` argument of `_ensure_pdf_bytes` (the value used by
`_invoke`, which passes no explicit timeout). -/
def ensureTimeout : Nat := 30

/-- Case 3 of `_ensure_pdf_bytes`: the URL fetch.  `url` is the result of
`_first(item.get("url"), item.get("remote_url"))` for dicts and `None`
otherwise.  The second component logs the `requests.get` calls issued,
as (url, timeout) pairs. -/
def ensureUrl (env : Env) (url : Option String) (timeout : Nat) :
    Except String Bytes × List (String × Nat) :=
  match url with
  | none => (Except.error valueErrMsg, [])
  | some u =>
    match env.http u timeout with
    | Except.error e => (Except.error e, [(u, timeout)])
    | Except.ok resp =>
      match raise_for_status resp with
      | Except.error e => (Except.error e, [(u, timeout)])
      | Except.ok _ => (Except.ok resp.body, [(u, timeout)])

/-- Cases 2 and 3 of `_ensure_pdf_bytes`, reached when
`getattr(item, "blob", None)` was falsy: a dict whose `blob` key holds a
`bytes`/`bytearray` value returns those bytes (an `isinstance` check, with
no truthiness test), otherwise the URL path is tried. -/
def ensureRest (env : Env) (item : Item) (timeout : Nat) :
    Except String Bytes × List (String × Nat) :=
  match item with
  | Item.dict d =>
    match d.blob with
    | some (PyVal.vBytes b) => (Except.ok b, [])
    | _ => ensureUrl env (firstStr [d.url, d.remote_url]) timeout
  | Item.file _ _ => ensureUrl env none timeout

/-- `_ensure_pdf_bytes(item, timeout)`.  Case 1: a truthy `blob` attribute
(only `File`-like objects have one; empty bytes are falsy) is returned
directly.  The second component logs the HTTP GETs issued. -/
def ensure_pdf_bytes (env : Env) (item : Item) (timeout : Nat) :
    Except String Bytes × List (String × Nat) :=
  match item with
  | Item.file (some b) u =>
    if b = [] then ensureRest env (Item.file (some b) u) timeout
    else (Except.ok b, [])
  | _ => ensureRest env item timeout

/-- A per-page record as built inside `_extract_text_from_pdf_bytes`
(metadata is attached later, in `_invoke`). -/
structure PageRec where
  text : String
deriving Repr, DecidableEq

/-- The page loop of `_extract_text_from_pdf_bytes`: read pages
`i, i+1, ...` (`n` of them), stopping at the first raised exception. -/
def pagesFrom (doc : PdfDoc) : Nat → Nat → Except String (List PageRec)
  | _, 0 => Except.ok []
  | i, Nat.succ n =>
    match doc.pageText i with
    | Except.error e => Except.error e
    | Except.ok t =>
      match pagesFrom doc (i + 1) n with
      | Except.error e => Except.error e
      | Except.ok rest => Except.ok (PageRec.mk t :: rest)

/-- The observable outcome of `_extract_text_from_pdf_bytes`, with the
resource bookkeeping of its `try/finally` block made explicit:
`docOpened` records whether `fitz.open` succeeded, `docClosed` whether
`doc.close()` ran, `streamClosed` whether `stream.close()` ran. -/
structure ExtractResult where
  result : Except String (List PageRec)
  docOpened : Bool
  docClosed : Bool
  streamClosed : Bool

/-- `_extract_text_from_pdf_bytes(pdf_bytes, fitz_module)`: open the
document from a byte stream and collect one record per reported page; the
`finally` block closes the document (when it was opened) and the stream in
every case, whether or not an exception is propagating. -/
def extract_text_from_pdf_bytes (env : Env) (b : Bytes) : ExtractResult :=
  match env.open_pdf b with
  | Except.error e => ExtractResult.mk (Except.error e) false false true
  | Except.ok doc =>
    ExtractResult.mk (pagesFrom doc 0 doc.page_count) true true true

/-- A page record with the metadata `_invoke` attaches:
`{"text": ..., "metadata": {"page": ..., "file_name": ...}}`. -/
structure PageOut where
  text : String
  page : Nat
  file_name : String
deriving Repr, DecidableEq

/-- The content of a JSON message: either the per-file mapping
`{filename: page_dicts}` of a success, or the `{fname: {"error": e}}`
mapping of a failure. -/
inductive JsonMsg where
  | pages (filename : String) (recs : List PageOut)
  | err (fname : String) (msg : String)
deriving Repr, DecidableEq

/-- A message yielded by `_invoke`, through `create_text_message`,
`create_json_message` or `create_blob_message` (with its `mime_type`). -/
inductive Msg where
  | text (s : String)
  | json (j : JsonMsg)
  | blob (data : Bytes) (mime : String)
deriving Repr, DecidableEq

/-- `joined_text.encode("utf-8", errors="ignore")`.  Lean strings contain
only Unicode scalar values, so the `ignore` handler never drops anything
in the embedding and the encoding is standard UTF-8. -/
def utf8Encode (s : String) : Bytes :=
  s.toUTF8.toList.map (fun b => b.toNat)

/-- The separator `"\n\n---PAGE BREAK---\n\n"` used to join page texts. -/
def pageBreakSep : String := "\n\n---PAGE BREAK---\n\n"

/-- The text yielded when `files` is missing, empty or not a list. -/
def noFilesMsg : String :=
  "No files provided. Please supply an array of PDF objects or Dify Files."

/-- The head of the per-item error text message. -/
def errHead : String := "Error processing file: "

/-- The head of the import-failure text message. -/
def importErrHead : String :=
  "Error: PyMuPDF library not installed or failed to import. "

/-- The `url` local of the loop body: `_first` over the dict's `url` and
`remote_url` for dicts, the raw `url` attribute for objects that have one. -/
def itemUrl : Item → Option String
  | Item.dict d => firstStr [d.url, d.remote_url]
  | Item.file _ u => u

/-- The dict passed to `_infer_filename`:
`item if isinstance(item, dict) else {}`. -/
def itemDict : Item → Dict
  | Item.dict d => d
  | Item.file _ _ => Dict.mk none none none none

/-- `enumerate(page_dicts, start=idx)` with metadata attachment: the `k`-th
record of the result carries page number `idx + k`. -/
def attachMetaFrom (filename : String) (idx : Nat) : List PageRec → List PageOut
  | [] => []
  | r :: rest => PageOut.mk r.text idx filename :: attachMetaFrom filename (idx + 1) rest

/-- Metadata attachment as done in `_invoke` (1-based page numbers). -/
def attachMeta (filename : String) (recs : List PageRec) : List PageOut :=
  attachMetaFrom filename 1 recs

/-- The `fname` used in the error branch of the loop: re-inferred for dicts,
`"unknown.pdf"` otherwise. -/
def errFname : Item → String
  | Item.dict d => infer_filename d (firstStr [d.url, d.remote_url])
  | Item.file _ _ => "unknown.pdf"

/-- The messages and HTTP log one iteration of the per-item loop produces.
The whole body runs under `try/except Exception`, so an exception from
byte resolution or extraction ends in the two error messages. -/
structure ItemOut where
  msgs : List Msg
  http : List (String × Nat)
deriving Repr, DecidableEq

/-- One iteration of the `for item in files` loop of `_invoke`. -/
def processItem (env : Env) (item : Item) : ItemOut :=
  let filename := infer_filename (itemDict item) (itemUrl item)
  match ensure_pdf_bytes env item ensureTimeout with
  | (Except.error e, log) =>
    ItemOut.mk [Msg.text (errHead ++ e), Msg.json (JsonMsg.err (errFname item) e)] log
  | (Except.ok pdfBytes, log) =>
    match (extract_text_from_pdf_bytes env pdfBytes).result with
    | Except.error e =>
      ItemOut.mk [Msg.text (errHead ++ e), Msg.json (JsonMsg.err (errFname item) e)] log
    | Except.ok pageDicts =>
      let joined := String.intercalate pageBreakSep (pageDicts.map PageRec.text)
      ItemOut.mk
        [Msg.text joined,
         Msg.json (JsonMsg.pages filename (attachMeta filename pageDicts)),
         Msg.blob (utf8Encode joined) "text/plain"]
        log

/-- The value of `tool_parameters.get("files")`: absent (`None`), a list of
items, or a value of some other type (whose truthiness is irrelevant, since
`not isinstance(files, list)` already diverts it). -/
inductive FilesVal where
  | missing
  | list (items : List Item)
  | notList (truthy : Bool)
deriving DecidableEq

/-- The observable outcome of `_invoke`: messages yielded in order, HTTP
GETs issued, and whether the PyMuPDF import was attempted. -/
structure InvokeOut where
  msgs : List Msg
  http : List (String × Nat)
  fitzImported : Bool
deriving Repr, DecidableEq

/-- `_invoke(tool_parameters)`.  The guard
`not files or not isinstance(files, list)` passes exactly the nonempty
lists; then the library import is attempted, and on success each item is
processed in order by the loop. -/
def invoke (env : Env) (files : FilesVal) : InvokeOut :=
  match files with
  | FilesVal.list (item :: rest) =>
    match env.fitzImport with
    | Except.error e =>
      InvokeOut.mk [Msg.text (importErrHead ++ e)] [] true
    | Except.ok _ =>
      let outs := (item :: rest).map (processItem env)
      InvokeOut.mk ((outs.map ItemOut.msgs).flatten) ((outs.map ItemOut.http).flatten) true
  | _ => InvokeOut.mk [Msg.text noFilesMsg] [] false

/-- The first exception the loop body raises for an item, if any: byte
resolution first, then extraction. -/
def itemError (env : Env) (item : Item) : Option String :=
  match (ensure_pdf_bytes env item ensureTimeout).1 with
  | Except.error e => some e
  | Except.ok b =>
    match (extract_text_from_pdf_bytes env b).result with
    | Except.error e => some e
    | Except.ok _ => none

/-- The dict's `blob` entry when it holds a `bytes`/`bytearray` value, as
tested by the `isinstance` check of `_ensure_pdf_bytes`. -/
def dictBlobBytes (d : Dict) : Option Bytes :=
  match d.blob with
  | some (PyVal.vBytes b) => some b
  | _ => none

/-- The name the `filename` dict field contributes, if any: a stripped
non-blank string value. -/
def filenameStr (d : Dict) : Option String :=
  match d.filename with
  | some (PyVal.vStr s) => if pyStrip s = "" then none else some (pyStrip s)
  | _ => none

/-- A two-page document with fixed page texts, used as a concrete instance. -/
def docW : PdfDoc :=
  PdfDoc.mk 2 (fun i => Except.ok (if i = 0 then "alpha" else "beta"))

/-- A concrete environment: one URL serves a 200 response, every other URL a
404; every byte string opens as `docW`; the library import succeeds. -/
def envW : Env :=
  Env.mk
    (fun u _ =>
      if u = "http://host/dir/a.pdf?sig=1" then
        Except.ok (HttpResp.mk 200 [37, 80, 68, 70])
      else Except.ok (HttpResp.mk 404 []))
    (fun _ => Except.ok docW)
    (Except.ok ())

/-- A concrete environment in which the HTTP client and the PDF library both
raise, used for failure instances. -/
def envErr : Env :=
  Env.mk (fun _ _ => Except.error "connection error")
    (fun _ => Except.error "cannot open document") (Except.ok ())

/-- A dict item carrying PDF bytes directly, plus a `filename` field. -/
def itemBlobW : Item :=
  Item.dict (Dict.mk (some (PyVal.vBytes [37, 80, 68, 70])) none none
    (some (PyVal.vStr "doc.pdf")))

/-- A dict item carrying only a (padded) URL. -/
def itemUrlW : Item :=
  Item.dict (Dict.mk none (some (PyVal.vStr " http://host/dir/a.pdf?sig=1 ")) none none)

/-- A dict item with no PDF source at all. -/
def itemNoSourceW : Item := Item.dict (Dict.mk none none none none)

/-- A dict item whose `blob` entry is an empty byte string. -/
def itemEmptyBlobW : Item :=
  Item.dict (Dict.mk (some (PyVal.vBytes [])) none none none)

section Helpers

/-- When every page read succeeds, the page loop returns one record per
requested page, in order. -/
theorem pagesFrom_ok (doc : PdfDoc) (f : Nat → String) :
    ∀ n i, (∀ j, j < n → doc.pageText (i + j) = Except.ok (f (i + j))) →
      pagesFrom doc i n =
        Except.ok ((List.range n).map (fun j => PageRec.mk (f (i + j)))) := by
  intro n
  induction n with
  | zero => intro i _; rfl
  | succ n ih =>
    intro i h
    have h0 : doc.pageText i = Except.ok (f i) := by
      have := h 0 (Nat.succ_pos n)
      simpa using this
    have hrest : pagesFrom doc (i + 1) n =
        Except.ok ((List.range n).map (fun j => PageRec.mk (f (i + 1 + j)))) := by
      apply ih
      intro j hj
      have := h (j + 1) (Nat.succ_lt_succ hj)
      have hidx : i + (j + 1) = i + 1 + j := by omega
      rw [hidx] at this
      exact this
    show (match doc.pageText i with
      | Except.error e => Except.error e
      | Except.ok t =>
        match pagesFrom doc (i + 1) n with
        | Except.error e => Except.error e
        | Except.ok rest => Except.ok (PageRec.mk t :: rest)) = _
    rw [h0, hrest]
    rw [List.range_succ_eq_map]
    simp [List.map_map, Function.comp]
    intro a _
    exact congrArg f (by omega)

/-- `attachMetaFrom` preserves the number of records. -/
theorem attachMetaFrom_length (filename : String) :
    ∀ (recs : List PageRec) (idx : Nat),
      (attachMetaFrom filename idx recs).length = recs.length := by
  intro recs
  induction recs with
  | nil => intro idx; rfl
  | cons r rest ih =>
    intro idx
    show (attachMetaFrom filename idx (r :: rest)).length = rest.length + 1
    have : attachMetaFrom filename idx (r :: rest) =
        PageOut.mk r.text idx filename :: attachMetaFrom filename (idx + 1) rest := rfl
    rw [this, List.length_cons, ih]

/-- The `k`-th record of `attachMetaFrom filename idx recs` keeps the text
of the `k`-th input record and carries page number `idx + k`. -/
theorem attachMetaFrom_getElem (filename : String) :
    ∀ (recs : List PageRec) (idx k : Nat),
      (attachMetaFrom filename idx recs)[k]? =
        recs[k]?.map (fun r => PageOut.mk r.text (idx + k) filename) := by
  intro recs
  induction recs with
  | nil => intro idx k; rfl
  | cons r rest ih =>
    intro idx k
    have hcons : attachMetaFrom filename idx (r :: rest) =
        PageOut.mk r.text idx filename :: attachMetaFrom filename (idx + 1) rest := rfl
    rw [hcons]
    cases k with
    | zero => simp
    | succ k =>
      simp only [List.getElem?_cons_succ, ih]
      congr 1
      funext r2
      congr 1
      omega

/-- The three messages of a successful loop iteration, in order. -/
theorem processItem_ok (env : Env) (item : Item) (b : Bytes) (recs : List PageRec)
    (hb : (ensure_pdf_bytes env item ensureTimeout).1 = Except.ok b)
    (hx : (extract_text_from_pdf_bytes env b).result = Except.ok recs) :
    processItem env item =
      ItemOut.mk
        [Msg.text (String.intercalate pageBreakSep (recs.map PageRec.text)),
         Msg.json (JsonMsg.pages (infer_filename (itemDict item) (itemUrl item))
                   (attachMeta (infer_filename (itemDict item) (itemUrl item)) recs)),
         Msg.blob (utf8Encode (String.intercalate pageBreakSep (recs.map PageRec.text)))
           "text/plain"]
        (ensure_pdf_bytes env item ensureTimeout).2 := by
  rcases hpair : ensure_pdf_bytes env item ensureTimeout with ⟨r, log⟩
  rw [hpair] at hb
  have hr : r = Except.ok b := hb
  subst hr
  unfold processItem
  rw [hpair]
  dsimp only
  rw [hx]

/-- The two messages of a failed loop iteration, in order. -/
theorem processItem_err (env : Env) (item : Item) (e : String)
    (h : itemError env item = some e) :
    (processItem env item).msgs =
      [Msg.text (errHead ++ e), Msg.json (JsonMsg.err (errFname item) e)] := by
  unfold itemError at h
  rcases hpair : ensure_pdf_bytes env item ensureTimeout with ⟨r, log⟩
  rw [hpair] at h
  unfold processItem
  rw [hpair]
  dsimp only
  cases r with
  | error e2 =>
    simp only at h
    have he : e2 = e := by
      have : some e2 = some e := h
      exact Option.some.inj this
    subst he
    rfl
  | ok b =>
    dsimp only at h ⊢
    cases hres : (extract_text_from_pdf_bytes env b).result with
    | error e2 =>
      rw [hres] at h
      dsimp only at h
      have he : e2 = e := Option.some.inj h
      subst he
      rfl
    | ok recs =>
      rw [hres] at h
      dsimp only at h
      exact Option.noConfusion h

/-- `_invoke` on a nonempty list, with the import succeeding, concatenates
the per-item outputs in order. -/
theorem invoke_list (env : Env) (items : List Item) (h : items ≠ [])
    (himp : env.fitzImport = Except.ok ()) :
    invoke env (FilesVal.list items) =
      InvokeOut.mk ((items.map (fun it => (processItem env it).msgs)).flatten)
        ((items.map (fun it => (processItem env it).http)).flatten) true := by
  cases items with
  | nil => exact absurd rfl h
  | cons item rest =>
    unfold invoke
    rw [himp]
    dsimp only
    rw [List.map_map, List.map_map]
    rfl

/-- On a dict whose `blob` entry is not `bytes`-valued, `_ensure_pdf_bytes`
reduces to the URL branch. -/
theorem ensureRest_dict_noBytes (env : Env) (d : Dict) (t : Nat)
    (h : dictBlobBytes d = none) :
    ensureRest env (Item.dict d) t =
      ensureUrl env (firstStr [d.url, d.remote_url]) t := by
  unfold ensureRest
  dsimp only
  unfold dictBlobBytes at h
  cases hd : d.blob with
  | none => rfl
  | some v =>
    rw [hd] at h
    cases v with
    | vNone => rfl
    | vStr s => rfl
    | vBytes b => exact Option.noConfusion h
    | vOther => rfl

/-- The URL branch always logs exactly one GET, to the given URL with the
given timeout, whatever the response. -/
theorem ensureUrl_log (env : Env) (u : String) (t : Nat) :
    (ensureUrl env (some u) t).2 = [(u, t)] := by
  unfold ensureUrl
  dsimp only
  cases env.http u t with
  | error e => rfl
  | ok resp =>
    dsimp only
    cases raise_for_status resp with
    | error e => rfl
    | ok _ => rfl

/-- `_ensure_pdf_bytes` never issues more than one GET. -/
theorem ensure_log_le_one (env : Env) (item : Item) (t : Nat) :
    (ensure_pdf_bytes env item t).2.length ≤ 1 := by
  have hurl : ∀ url, (ensureUrl env url t).2.length ≤ 1 := by
    intro url
    cases url with
    | none => simp [ensureUrl]
    | some u => rw [ensureUrl_log]; simp
  have hrest : ∀ it, (ensureRest env it t).2.length ≤ 1 := by
    intro it
    cases it with
    | dict d =>
      show (match d.blob with
        | some (PyVal.vBytes b) => ((Except.ok b : Except String Bytes), ([] : List (String × Nat)))
        | _ => ensureUrl env (firstStr [d.url, d.remote_url]) t).2.length ≤ 1
      cases hd : d.blob with
      | none => exact hurl _
      | some v =>
        cases v with
        | vNone => exact hurl _
        | vStr s => exact hurl _
        | vBytes b => simp
        | vOther => exact hurl _
    | file ob u => exact hurl _
  cases item with
  | dict d => exact hrest _
  | file ob u =>
    cases ob with
    | none => exact hrest _
    | some b =>
      show (if b = [] then ensureRest env (Item.file (some b) u) t
        else ((Except.ok b : Except String Bytes), ([] : List (String × Nat)))).2.length ≤ 1
      by_cases hb : b = []
      · rw [if_pos hb]; exact hrest _
      · rw [if_neg hb]; simp

/-- When the `filename` field yields a stripped non-blank string, that
string is the inferred filename, whatever the URL. -/
theorem infer_filename_name (d : Dict) (url : Option String) (s : String)
    (h : filenameStr d = some s) : infer_filename d url = s := by
  unfold infer_filename
  unfold filenameStr at h
  cases hd : d.filename with
  | none => rw [hd] at h; exact Option.noConfusion h
  | some v =>
    rw [hd] at h
    cases v with
    | vNone => exact Option.noConfusion h
    | vOther => exact Option.noConfusion h
    | vBytes b => exact Option.noConfusion h
    | vStr s2 =>
      dsimp only at h ⊢
      by_cases hb : pyStrip s2 = ""
      · rw [if_pos hb] at h; exact Option.noConfusion h
      · rw [if_neg hb] at h
        rw [if_neg hb]
        exact Option.some.inj h

/-- When the `filename` field yields nothing, the filename comes from the
URL alone. -/
theorem infer_filename_noname (d : Dict) (url : Option String)
    (h : filenameStr d = none) : infer_filename d url = inferFromUrl url := by
  unfold infer_filename
  unfold filenameStr at h
  cases hd : d.filename with
  | none => rfl
  | some v =>
    rw [hd] at h
    cases v with
    | vNone => rfl
    | vOther => rfl
    | vBytes b => rfl
    | vStr s2 =>
      dsimp only at h ⊢
      by_cases hb : pyStrip s2 = ""
      · rw [if_pos hb]
      · rw [if_neg hb] at h; exact Option.noConfusion h

end Helpers

/-- C1: an item processed without an exception yields exactly three messages,
in this order: the joined plain text, a JSON message mapping the inferred
filename to the per-page records, and a blob message carrying the UTF-8
bytes of the text with mime_type "text/plain". -/
theorem C1_three_messages (env : Env) (item : Item) (b : Bytes) (recs : List PageRec)
    (hb : (ensure_pdf_bytes env item ensureTimeout).1 = Except.ok b)
    (hx : (extract_text_from_pdf_bytes env b).result = Except.ok recs) :
    (processItem env item).msgs =
      [Msg.text (String.intercalate pageBreakSep (recs.map PageRec.text)),
       Msg.json (JsonMsg.pages (infer_filename (itemDict item) (itemUrl item))
                 (attachMeta (infer_filename (itemDict item) (itemUrl item)) recs)),
       Msg.blob (utf8Encode (String.intercalate pageBreakSep (recs.map PageRec.text)))
         "text/plain"] := by
  rw [processItem_ok env item b recs hb hx]

/-- Witness for C1 at a concrete item and environment. -/
theorem C1_three_messages_witness :
    (ensure_pdf_bytes envW itemBlobW ensureTimeout).1 = Except.ok [37, 80, 68, 70] ∧
    (extract_text_from_pdf_bytes envW [37, 80, 68, 70]).result =
      Except.ok [PageRec.mk "alpha", PageRec.mk "beta"] ∧
    (processItem envW itemBlobW).msgs =
      [Msg.text (String.intercalate pageBreakSep
          ([PageRec.mk "alpha", PageRec.mk "beta"].map PageRec.text)),
       Msg.json (JsonMsg.pages (infer_filename (itemDict itemBlobW) (itemUrl itemBlobW))
                 (attachMeta (infer_filename (itemDict itemBlobW) (itemUrl itemBlobW))
                   [PageRec.mk "alpha", PageRec.mk "beta"])),
       Msg.blob (utf8Encode (String.intercalate pageBreakSep
          ([PageRec.mk "alpha", PageRec.mk "beta"].map PageRec.text)))
         "text/plain"] :=
  ⟨rfl, rfl,
   C1_three_messages envW itemBlobW [37, 80, 68, 70]
     [PageRec.mk "alpha", PageRec.mk "beta"] rfl rfl⟩

/-- C2: the text-message content is the per-page texts, in page order,
joined with the separator "\n\n---PAGE BREAK---\n\n"; with zero pages it is
the empty string, and with one page it is that page's text with no
separator inserted. -/
theorem C2_joined_text (env : Env) (item : Item) (b : Bytes) (recs : List PageRec)
    (hb : (ensure_pdf_bytes env item ensureTimeout).1 = Except.ok b)
    (hx : (extract_text_from_pdf_bytes env b).result = Except.ok recs) :
    (processItem env item).msgs.head? =
      some (Msg.text
        (String.intercalate "\n\n---PAGE BREAK---\n\n" (recs.map PageRec.text))) ∧
    (recs = [] →
      String.intercalate "\n\n---PAGE BREAK---\n\n" (recs.map PageRec.text) = "") ∧
    (∀ t, recs = [PageRec.mk t] →
      String.intercalate "\n\n---PAGE BREAK---\n\n" (recs.map PageRec.text) = t) := by
  refine ⟨?_, ?_, ?_⟩
  · rw [processItem_ok env item b recs hb hx]
    rfl
  · intro h; subst h; rfl
  · intro t h; subst h; rfl

/-- Witness for C2 at a concrete item and environment. -/
theorem C2_joined_text_witness :
    (ensure_pdf_bytes envW itemBlobW ensureTimeout).1 = Except.ok [37, 80, 68, 70] ∧
    (extract_text_from_pdf_bytes envW [37, 80, 68, 70]).result =
      Except.ok [PageRec.mk "alpha", PageRec.mk "beta"] ∧
    (processItem envW itemBlobW).msgs.head? =
      some (Msg.text (String.intercalate "\n\n---PAGE BREAK---\n\n"
        ([PageRec.mk "alpha", PageRec.mk "beta"].map PageRec.text))) :=
  ⟨rfl, rfl,
   (C2_joined_text envW itemBlobW [37, 80, 68, 70]
     [PageRec.mk "alpha", PageRec.mk "beta"] rfl rfl).1⟩

/-- C3: `_ensure_pdf_bytes` resolves bytes with fixed precedence: a truthy
`blob` attribute wins; else a `bytes`-valued dict `blob` entry; else exactly
one timed GET to the first non-blank of `url`/`remote_url`, whose body is
returned on success and whose 4xx/5xx status fails the item; with no blob
and no usable URL it raises the `ValueError`; never more than one GET. -/
theorem C3_ensure_precedence (env : Env) :
    (∀ b u, b ≠ [] →
      ensure_pdf_bytes env (Item.file (some b) u) ensureTimeout = (Except.ok b, [])) ∧
    (∀ d b, d.blob = some (PyVal.vBytes b) →
      ensure_pdf_bytes env (Item.dict d) ensureTimeout = (Except.ok b, [])) ∧
    (∀ d u, dictBlobBytes d = none → firstStr [d.url, d.remote_url] = some u →
      (ensure_pdf_bytes env (Item.dict d) ensureTimeout).2 = [(u, ensureTimeout)] ∧
      (∀ resp, env.http u ensureTimeout = Except.ok resp → resp.status < 400 →
        (ensure_pdf_bytes env (Item.dict d) ensureTimeout).1 = Except.ok resp.body) ∧
      (∀ resp, env.http u ensureTimeout = Except.ok resp →
        400 ≤ resp.status → resp.status < 600 →
        (ensure_pdf_bytes env (Item.dict d) ensureTimeout).1 =
          Except.error ("HTTP error " ++ toString resp.status))) ∧
    (∀ d, dictBlobBytes d = none → firstStr [d.url, d.remote_url] = none →
      ensure_pdf_bytes env (Item.dict d) ensureTimeout = (Except.error valueErrMsg, [])) ∧
    (∀ u, ensure_pdf_bytes env (Item.file none u) ensureTimeout =
      (Except.error valueErrMsg, [])) ∧
    (∀ item, (ensure_pdf_bytes env item ensureTimeout).2.length ≤ 1) := by
  have hdict : ∀ d, ensure_pdf_bytes env (Item.dict d) ensureTimeout =
      ensureRest env (Item.dict d) ensureTimeout := fun d => rfl
  refine ⟨?_, ?_, ?_, ?_, ?_, ?_⟩
  · intro b u hb
    show (if b = [] then ensureRest env (Item.file (some b) u) ensureTimeout
      else (Except.ok b, [])) = (Except.ok b, [])
    rw [if_neg hb]
  · intro d b hd
    rw [hdict d]
    unfold ensureRest
    dsimp only
    rw [hd]
  · intro d u hnb hu
    rw [hdict d, ensureRest_dict_noBytes env d ensureTimeout hnb, hu]
    refine ⟨ensureUrl_log env u ensureTimeout, ?_, ?_⟩
    · intro resp hresp hst
      unfold ensureUrl
      dsimp only
      rw [hresp]
      dsimp only
      have hok : raise_for_status resp = Except.ok () := by
        unfold raise_for_status
        rw [if_neg]
        omega
      rw [hok]
    · intro resp hresp h4 h6
      unfold ensureUrl
      dsimp only
      rw [hresp]
      dsimp only
      have herr : raise_for_status resp =
          Except.error ("HTTP error " ++ toString resp.status) := by
        unfold raise_for_status
        rw [if_pos ⟨h4, h6⟩]
      rw [herr]
  · intro d hnb hu
    rw [hdict d, ensureRest_dict_noBytes env d ensureTimeout hnb, hu]
    rfl
  · intro u
    rfl
  · intro item
    exact ensure_log_le_one env item ensureTimeout

/-- Witness for C3: each branch of the precedence exercised concretely. -/
theorem C3_ensure_precedence_witness :
    ensure_pdf_bytes envW (Item.file (some [1, 2]) none) ensureTimeout =
      (Except.ok [1, 2], []) ∧
    ensure_pdf_bytes envW itemBlobW ensureTimeout =
      (Except.ok [37, 80, 68, 70], []) ∧
    (ensure_pdf_bytes envW itemUrlW ensureTimeout).2 =
      [("http://host/dir/a.pdf?sig=1", ensureTimeout)] ∧
    (ensure_pdf_bytes envW itemUrlW ensureTimeout).1 =
      Except.ok [37, 80, 68, 70] ∧
    (ensure_pdf_bytes envW
      (Item.dict (Dict.mk none (some (PyVal.vStr "http://other/b.pdf")) none none))
      ensureTimeout).1 = Except.error ("HTTP error " ++ toString (404 : Nat)) ∧
    ensure_pdf_bytes envW itemNoSourceW ensureTimeout =
      (Except.error valueErrMsg, []) ∧
    (ensure_pdf_bytes envW itemUrlW ensureTimeout).2.length ≤ 1 := by
  have h := C3_ensure_precedence envW
  refine ⟨h.1 [1, 2] none (by decide), ?_, ?_, ?_, ?_, ?_, ?_⟩
  · exact h.2.1 (Dict.mk (some (PyVal.vBytes [37, 80, 68, 70])) none none
      (some (PyVal.vStr "doc.pdf"))) [37, 80, 68, 70] rfl
  · exact (h.2.2.1 (Dict.mk none (some (PyVal.vStr " http://host/dir/a.pdf?sig=1 "))
      none none) "http://host/dir/a.pdf?sig=1" rfl (by decide)).1
  · have := (h.2.2.1 (Dict.mk none (some (PyVal.vStr " http://host/dir/a.pdf?sig=1 "))
      none none) "http://host/dir/a.pdf?sig=1" rfl (by decide)).2.1
      (HttpResp.mk 200 [37, 80, 68, 70]) rfl (by decide)
    exact this
  · have := (h.2.2.1 (Dict.mk none (some (PyVal.vStr "http://other/b.pdf")) none none)
      "http://other/b.pdf" rfl (by decide)).2.2 (HttpResp.mk 404 []) rfl (by decide) (by decide)
    exact this
  · exact h.2.2.2.1 (Dict.mk none none none none) rfl rfl
  · exact h.2.2.2.2.2 itemUrlW

/-- C8: when `files` is missing, an empty list, or not a list, `_invoke`
yields exactly the single "No files provided." text message and stops
without importing the PDF library or issuing any HTTP request. -/
theorem C8_no_files_guard (env : Env) (files : FilesVal)
    (h : files = FilesVal.missing ∨ files = FilesVal.list [] ∨
      ∃ t, files = FilesVal.notList t) :
    invoke env files = InvokeOut.mk [Msg.text noFilesMsg] [] false := by
  rcases h with h | h | ⟨t, h⟩ <;> subst h <;> rfl

/-- Witness for C8 at the three concrete guard-failing inputs. -/
theorem C8_no_files_guard_witness :
    invoke envW FilesVal.missing = InvokeOut.mk [Msg.text noFilesMsg] [] false ∧
    invoke envW (FilesVal.list []) = InvokeOut.mk [Msg.text noFilesMsg] [] false ∧
    invoke envW (FilesVal.notList true) = InvokeOut.mk [Msg.text noFilesMsg] [] false :=
  ⟨C8_no_files_guard envW FilesVal.missing (Or.inl rfl),
   C8_no_files_guard envW (FilesVal.list []) (Or.inr (Or.inl rfl)),
   C8_no_files_guard envW (FilesVal.notList true) (Or.inr (Or.inr ⟨true, rfl⟩))⟩

/-- C10: processing is independent and cache-free.  For a fixed environment,
the messages an item contributes are `(processItem env item).msgs`, a
function of the environment and that item alone: in any position, between
any neighbours, its message block is the same as when it is the only item. -/
theorem C10_item_independence (env : Env) (item : Item) (l1 l2 : List Item)
    (himp : env.fitzImport = Except.ok ()) :
    (invoke env (FilesVal.list (l1 ++ item :: l2))).msgs =
      (l1.map (fun it => (processItem env it).msgs)).flatten ++
      (processItem env item).msgs ++
      (l2.map (fun it => (processItem env it).msgs)).flatten ∧
    (invoke env (FilesVal.list [item])).msgs = (processItem env item).msgs := by
  constructor
  · rw [invoke_list env (l1 ++ item :: l2) (by simp) himp]
    simp
  · rw [invoke_list env [item] (by simp) himp]
    simp

/-- Witness for C10 at a concrete environment, item and neighbours. -/
theorem C10_item_independence_witness :
    (invoke envW (FilesVal.list ([itemNoSourceW] ++ itemBlobW :: [itemUrlW]))).msgs =
      ([itemNoSourceW].map (fun it => (processItem envW it).msgs)).flatten ++
      (processItem envW itemBlobW).msgs ++
      ([itemUrlW].map (fun it => (processItem envW it).msgs)).flatten :=
  (C10_item_independence envW itemBlobW [itemNoSourceW] [itemUrlW] rfl).1

/-- C4: every exception in the loop body is caught and reported as a text
message plus a JSON error message for that item, and the loop's output is
the concatenation of every item's output, so one item's failure never
prevents later items from being attempted and no exception escapes. -/
theorem C4_error_isolation (env : Env) (items : List Item)
    (himp : env.fitzImport = Except.ok ()) (hne : items ≠ []) :
    (invoke env (FilesVal.list items)).msgs =
      (items.map (fun it => (processItem env it).msgs)).flatten ∧
    (∀ it e, itemError env it = some e →
      (processItem env it).msgs =
        [Msg.text (errHead ++ e), Msg.json (JsonMsg.err (errFname it) e)]) :=
  ⟨by rw [invoke_list env items hne himp],
   fun it e h => processItem_err env it e h⟩

/-- Witness for C4: a failing item followed by another item that is still
attempted (and also fails, in this all-failing environment). -/
theorem C4_error_isolation_witness :
    (invoke envErr (FilesVal.list [itemNoSourceW, itemBlobW])).msgs =
      ([itemNoSourceW, itemBlobW].map (fun it => (processItem envErr it).msgs)).flatten ∧
    (processItem envErr itemNoSourceW).msgs =
      [Msg.text (errHead ++ valueErrMsg),
       Msg.json (JsonMsg.err (errFname itemNoSourceW) valueErrMsg)] := by
  have h := C4_error_isolation envErr [itemNoSourceW, itemBlobW] rfl (by simp)
  exact ⟨h.1, h.2 itemNoSourceW valueErrMsg rfl⟩

/-- C5: when opening succeeds and every page read succeeds, the extraction
returns exactly `page_count` records, the `i`-th holding page `i`'s text,
and the document and stream are closed; on any outcome the stream is
closed, and the document is closed whenever it was opened. -/
theorem C5_extract_pages (env : Env) (b : Bytes) (doc : PdfDoc) (f : Nat → String)
    (hopen : env.open_pdf b = Except.ok doc)
    (hpages : ∀ i, i < doc.page_count → doc.pageText i = Except.ok (f i)) :
    (∃ pages, (extract_text_from_pdf_bytes env b).result = Except.ok pages ∧
      pages.length = doc.page_count ∧
      ∀ i, i < doc.page_count → pages[i]? = some (PageRec.mk (f i))) ∧
    (extract_text_from_pdf_bytes env b).docClosed = true ∧
    (extract_text_from_pdf_bytes env b).streamClosed = true ∧
    (∀ b2, (extract_text_from_pdf_bytes env b2).streamClosed = true ∧
      ((extract_text_from_pdf_bytes env b2).docOpened = true →
        (extract_text_from_pdf_bytes env b2).docClosed = true)) := by
  have hres : extract_text_from_pdf_bytes env b =
      ExtractResult.mk (pagesFrom doc 0 doc.page_count) true true true := by
    unfold extract_text_from_pdf_bytes
    rw [hopen]
  have hpf : pagesFrom doc 0 doc.page_count =
      Except.ok ((List.range doc.page_count).map (fun j => PageRec.mk (f (0 + j)))) := by
    apply pagesFrom_ok
    intro j hj
    exact hpages (0 + j) (by omega)
  refine ⟨⟨(List.range doc.page_count).map (fun j => PageRec.mk (f (0 + j))),
      ?_, ?_, ?_⟩, ?_, ?_, ?_⟩
  · rw [hres]; exact hpf
  · simp
  · intro i hi
    rw [List.getElem?_map, List.getElem?_range hi]
    simp
  · rw [hres]
  · rw [hres]
  · intro b2
    unfold extract_text_from_pdf_bytes
    cases env.open_pdf b2 with
    | error e => exact ⟨rfl, fun h => Bool.noConfusion h⟩
    | ok d => exact ⟨rfl, fun _ => rfl⟩

/-- Witness for C5 at a concrete environment and document. -/
theorem C5_extract_pages_witness :
    envW.open_pdf [9] = Except.ok docW ∧
    (∀ i, i < docW.page_count →
      docW.pageText i = Except.ok (if i = 0 then "alpha" else "beta")) ∧
    ∃ pages, (extract_text_from_pdf_bytes envW [9]).result = Except.ok pages ∧
      pages.length = docW.page_count ∧
      ∀ i, i < docW.page_count →
        pages[i]? = some (PageRec.mk (if i = 0 then "alpha" else "beta")) := by
  have hp : ∀ i, i < docW.page_count →
      docW.pageText i = Except.ok ((fun i => if i = 0 then "alpha" else "beta") i) := by
    intro i hi
    have h2 : i < 2 := hi
    interval_cases i <;> rfl
  exact ⟨rfl, hp,
    (C5_extract_pages envW [9] docW (fun i => if i = 0 then "alpha" else "beta")
      rfl hp).1⟩

/-- C6: for a successful item the blob payload is the UTF-8 encoding of the
very string sent as the text message (Lean strings contain no lone
surrogates, so the `ignore` error handler drops nothing). -/
theorem C6_blob_is_utf8_of_text (env : Env) (item : Item) (b : Bytes)
    (recs : List PageRec)
    (hb : (ensure_pdf_bytes env item ensureTimeout).1 = Except.ok b)
    (hx : (extract_text_from_pdf_bytes env b).result = Except.ok recs) :
    ∃ s, (processItem env item).msgs.head? = some (Msg.text s) ∧
      (processItem env item).msgs.getLast? =
        some (Msg.blob (utf8Encode s) "text/plain") := by
  refine ⟨String.intercalate pageBreakSep (recs.map PageRec.text), ?_, ?_⟩ <;>
  · rw [processItem_ok env item b recs hb hx]
    rfl

/-- Witness for C6 at a concrete item and environment. -/
theorem C6_blob_is_utf8_of_text_witness :
    ∃ s, (processItem envW itemBlobW).msgs.head? = some (Msg.text s) ∧
      (processItem envW itemBlobW).msgs.getLast? =
        some (Msg.blob (utf8Encode s) "text/plain") :=
  C6_blob_is_utf8_of_text envW itemBlobW [37, 80, 68, 70]
    [PageRec.mk "alpha", PageRec.mk "beta"] rfl rfl

/-- C7: the JSON message of a successful item maps the inferred filename to
records whose `k`-th entry (0-based) carries page number `k + 1` and that
filename; and the filename precedence is: non-blank `filename` field
(stripped), else basename of the query-stripped URL path with a
`"document.pdf"` fallback for an empty basename, else `"document.pdf"`. -/
theorem C7_metadata_and_filename (env : Env) (item : Item) (b : Bytes)
    (recs : List PageRec)
    (hb : (ensure_pdf_bytes env item ensureTimeout).1 = Except.ok b)
    (hx : (extract_text_from_pdf_bytes env b).result = Except.ok recs) :
    ((processItem env item).msgs[1]? =
      some (Msg.json (JsonMsg.pages (infer_filename (itemDict item) (itemUrl item))
        (attachMeta (infer_filename (itemDict item) (itemUrl item)) recs))) ∧
     ∀ k, (attachMeta (infer_filename (itemDict item) (itemUrl item)) recs)[k]? =
        recs[k]?.map (fun r => PageOut.mk r.text (k + 1)
          (infer_filename (itemDict item) (itemUrl item)))) ∧
    (∀ d url s, filenameStr d = some s → infer_filename d url = s) ∧
    (∀ d u, filenameStr d = none → u ≠ "" →
      infer_filename d (some u) =
        (if basename (beforeQuery u) = "" then "document.pdf"
         else basename (beforeQuery u))) ∧
    (∀ d, filenameStr d = none → infer_filename d none = "document.pdf") ∧
    (∀ d, filenameStr d = none → infer_filename d (some "") = "document.pdf") := by
  refine ⟨⟨?_, ?_⟩, ?_, ?_, ?_, ?_⟩
  · rw [processItem_ok env item b recs hb hx]
    rfl
  · intro k
    show (attachMetaFrom (infer_filename (itemDict item) (itemUrl item)) 1 recs)[k]? = _
    rw [attachMetaFrom_getElem]
    have h1 : 1 + k = k + 1 := Nat.add_comm 1 k
    rw [h1]
  · exact fun d url s h => infer_filename_name d url s h
  · intro d u hnone hu
    rw [infer_filename_noname d (some u) hnone]
    show (if u = "" then "document.pdf"
      else
        let leaf := basename (beforeQuery u)
        if leaf = "" then "document.pdf" else leaf) = _
    rw [if_neg hu]
  · intro d hnone
    rw [infer_filename_noname d none hnone]
    rfl
  · intro d hnone
    rw [infer_filename_noname d (some "") hnone]
    rfl

/-- Witness for C7 at concrete items: a filename field, a URL-derived name
(query stripped), and the fallbacks. -/
theorem C7_metadata_and_filename_witness :
    (processItem envW itemBlobW).msgs[1]? =
      some (Msg.json (JsonMsg.pages (infer_filename (itemDict itemBlobW) (itemUrl itemBlobW))
        (attachMeta (infer_filename (itemDict itemBlobW) (itemUrl itemBlobW))
          [PageRec.mk "alpha", PageRec.mk "beta"]))) ∧
    (attachMeta (infer_filename (itemDict itemBlobW) (itemUrl itemBlobW))
      [PageRec.mk "alpha", PageRec.mk "beta"])[0]? =
      some (PageOut.mk "alpha" 1 (infer_filename (itemDict itemBlobW) (itemUrl itemBlobW))) ∧
    infer_filename (Dict.mk none none none (some (PyVal.vStr " doc.pdf "))) none = "doc.pdf" ∧
    infer_filename (Dict.mk none none none none)
      (some "http://host/dir/a.pdf?sig=1") = "a.pdf" ∧
    infer_filename (Dict.mk none none none none) none = "document.pdf" := by
  have h := C7_metadata_and_filename envW itemBlobW [37, 80, 68, 70]
    [PageRec.mk "alpha", PageRec.mk "beta"] rfl rfl
  refine ⟨h.1.1, ?_, ?_, ?_, ?_⟩
  · rw [h.1.2 0]
    rfl
  · exact h.2.1 (Dict.mk none none none (some (PyVal.vStr " doc.pdf "))) none
      "doc.pdf" (by decide)
  · have := h.2.2.1 (Dict.mk none none none none) "http://host/dir/a.pdf?sig=1"
      rfl (by decide)
    rw [this]
    decide
  · exact h.2.2.2.1 (Dict.mk none none none none) rfl

/-- C9 counterexample: a dict whose `blob` entry is the empty byte string IS
treated as providing PDF bytes — the `isinstance` check of the dict branch
has no truthiness test, so `_ensure_pdf_bytes` returns the empty bytes
instead of raising the "No usable PDF source found" ValueError. -/
theorem C9_counterexample :
    ensure_pdf_bytes envW itemEmptyBlobW ensureTimeout = (Except.ok [], []) ∧
    (ensure_pdf_bytes envW itemEmptyBlobW ensureTimeout).1 ≠
      Except.error valueErrMsg := by
  refine ⟨rfl, ?_⟩
  intro h
  exact Except.noConfusion h

/-- C9 (amended): an empty-bytes `blob` ATTRIBUTE is falsy and falls through
to the URL path, raising the ValueError when no URL is usable; but an
empty-bytes dict `blob` ENTRY passes the `isinstance` check and is returned,
so the empty byte string is handed on to the PDF library. -/
theorem C9_empty_blob_amended (env : Env) :
    (∀ u, ensure_pdf_bytes env (Item.file (some []) u) ensureTimeout =
      (Except.error valueErrMsg, [])) ∧
    (∀ u, ensure_pdf_bytes env (Item.file none u) ensureTimeout =
      (Except.error valueErrMsg, [])) ∧
    (∀ d, d.blob = some (PyVal.vBytes []) →
      ensure_pdf_bytes env (Item.dict d) ensureTimeout = (Except.ok [], [])) := by
  refine ⟨fun u => rfl, fun u => rfl, ?_⟩
  intro d hd
  show ensureRest env (Item.dict d) ensureTimeout = (Except.ok [], [])
  unfold ensureRest
  dsimp only
  rw [hd]

/-- Witness for the amended C9. -/
theorem C9_empty_blob_amended_witness :
    ensure_pdf_bytes envW (Item.file (some []) none) ensureTimeout =
      (Except.error valueErrMsg, []) ∧
    ensure_pdf_bytes envW itemEmptyBlobW ensureTimeout = (Except.ok [], []) :=
  ⟨(C9_empty_blob_amended envW).1 none,
   (C9_empty_blob_amended envW).2.2 (Dict.mk (some (PyVal.vBytes [])) none none none) rfl⟩

end Pymupdf
